import Mathlib

/-!
Verification of the `EarlyAllocator` dual-ended bump allocator
(`modules/bump_allocator/src/lib.rs`).

The allocator manages one contiguous `usize` address range.  Byte
allocations grow a cursor `b_pos` upward from `start`; page allocations
grow a cursor `p_pos` downward from `end`.  A live-allocation counter
`count` triggers wholesale reclamation of the byte area when it returns
to zero.

Machine integers (`usize`, 64-bit) are embedded as `Nat`.  Where the Rust
source performs *unchecked* arithmetic (which wraps under release
semantics) we take the result modulo `2^64` explicitly; where it performs
`checked_add` / `checked_sub` / `checked_mul` we model the check with an
`Option`.  Saturating subtraction on `usize` coincides with `Nat`
subtraction.  Fallible operations return the resulting state paired with
an `Except` value; the state component equals the input state on every
error path, mirroring the early returns of the source.
-/

namespace BumpAlloc

/-- The width of `usize` on the 64-bit targets this kernel builds for. -/
def USIZE : Nat := 2 ^ 64

/-- Rust `usize::checked_add`: `none` exactly when the sum exceeds `usize::MAX`. -/
def checked_add (a b : Nat) : Option Nat :=
  if a + b < USIZE then some (a + b) else none

/-- Rust `usize::checked_sub`: `none` exactly when the subtrahend is larger. -/
def checked_sub (a b : Nat) : Option Nat :=
  if b ≤ a then some (a - b) else none

/-- Rust `usize::checked_mul`: `none` exactly when the product exceeds `usize::MAX`. -/
def checked_mul (a b : Nat) : Option Nat :=
  if a * b < USIZE then some (a * b) else none

/-- 64-bit bitwise complement `!x` (for `x < 2^64`): xor with the all-ones word. -/
def usNot (x : Nat) : Nat := x ^^^ (USIZE - 1)

/-- `AllocError` of the `allocator` crate (the two variants this unit returns). -/
inductive AllocError where
  | NoMemory
  | InvalidParam
deriving DecidableEq

instance exceptDecEq {ε α : Type} [DecidableEq ε] [DecidableEq α] :
    DecidableEq (Except ε α) := fun x y =>
  match x, y with
  | Except.ok a, Except.ok b =>
    if h : a = b then Decidable.isTrue (congrArg Except.ok h)
    else Decidable.isFalse (fun he => h (Except.ok.inj he))
  | Except.error a, Except.error b =>
    if h : a = b then Decidable.isTrue (congrArg Except.error h)
    else Decidable.isFalse (fun he => h (Except.error.inj he))
  | Except.ok _, Except.error _ => Decidable.isFalse (fun he => Except.noConfusion he)
  | Except.error _, Except.ok _ => Decidable.isFalse (fun he => Except.noConfusion he)

/-- The five-field allocator state (struct `EarlyAllocator<const PAGE_SIZE>`).
`PAGE_SIZE` is passed to the page operations explicitly. `end` is a Lean
keyword, hence the field name `end_`. -/
structure EarlyAllocator where
  start : Nat
  end_ : Nat
  b_pos : Nat
  p_pos : Nat
  count : Nat
deriving DecidableEq

namespace EarlyAllocator

/-- `EarlyAllocator::new`. -/
def new : EarlyAllocator := ⟨0, 0, 0, 0, 0⟩

/-- `align_up(addr, align)`: `let a = max(1, align); (addr + a - 1) & !(a - 1)`.
The addition is unchecked in the source, so it wraps modulo `2^64`. -/
def align_up (addr align : Nat) : Nat :=
  let a := max 1 align
  ((addr + a - 1) % USIZE) &&& usNot (a - 1)

/-- `align_down(addr, align)`: `let a = max(1, align); addr & !(a - 1)`. -/
def align_down (addr align : Nat) : Nat :=
  let a := max 1 align
  addr &&& usNot (a - 1)

/-- `BaseAllocator::init`: `end = start_vaddr + size` is unchecked in the
source, so the stored bound wraps modulo `2^64`. -/
def init (_s : EarlyAllocator) (start_vaddr size : Nat) : EarlyAllocator :=
  { start := start_vaddr
    end_ := (start_vaddr + size) % USIZE
    b_pos := start_vaddr
    p_pos := (start_vaddr + size) % USIZE
    count := 0 }

/-- `BaseAllocator::add_memory`: success no-op. -/
def add_memory (s : EarlyAllocator) (_start_vaddr _size : Nat) :
    EarlyAllocator × Except AllocError Unit :=
  (s, Except.ok ())

/-- `ByteAllocator::alloc`.  `layout` is represented by its `size` and
`align` components; the returned address is the `Nat` value of the
`NonNull<u8>` pointer. -/
def alloc (s : EarlyAllocator) (size align : Nat) :
    EarlyAllocator × Except AllocError Nat :=
  let size := max size 1
  let align := max align 1
  let start := align_up s.b_pos align
  match checked_add start size with
  | none => (s, Except.error AllocError.NoMemory)
  | some e =>
    if e > s.p_pos then (s, Except.error AllocError.NoMemory)
    else ({ s with b_pos := e, count := s.count + 1 }, Except.ok start)

/-- `ByteAllocator::dealloc`.  The position and layout arguments are
accepted and ignored by the source (`_pos`, `_layout`). -/
def dealloc (s : EarlyAllocator) (_pos _size : Nat) : EarlyAllocator :=
  let count := if s.count > 0 then s.count - 1 else s.count
  let b_pos := if count = 0 then s.start else s.b_pos
  { s with count := count, b_pos := b_pos }

/-- `ByteAllocator::total_bytes` (saturating subtraction). -/
def total_bytes (s : EarlyAllocator) : Nat := s.end_ - s.start

/-- `ByteAllocator::used_bytes` (saturating subtraction). -/
def used_bytes (s : EarlyAllocator) : Nat := s.b_pos - s.start

/-- `ByteAllocator::available_bytes` (saturating subtraction). -/
def available_bytes (s : EarlyAllocator) : Nat := s.p_pos - s.b_pos

/-- `PageAllocator::total_pages`. -/
def total_pages (PS : Nat) (s : EarlyAllocator) : Nat := (s.end_ - s.start) / PS

/-- `PageAllocator::used_pages`. -/
def used_pages (PS : Nat) (s : EarlyAllocator) : Nat := (s.end_ - s.p_pos) / PS

/-- `PageAllocator::available_pages`. -/
def available_pages (PS : Nat) (s : EarlyAllocator) : Nat := (s.p_pos - s.b_pos) / PS

/-- `PageAllocator::alloc_pages`.  `usize::BITS as usize - 1 = 63`. -/
def alloc_pages (PS : Nat) (s : EarlyAllocator) (num_pages align_pow2 : Nat) :
    EarlyAllocator × Except AllocError Nat :=
  if num_pages = 0 then (s, Except.error AllocError.InvalidParam) else
  match checked_mul num_pages PS with
  | none => (s, Except.error AllocError.NoMemory)
  | some size =>
    let align := max PS (1 <<< min 63 align_pow2)
    let e := align_down s.p_pos align
    match checked_sub e size with
    | none => (s, Except.error AllocError.NoMemory)
    | some start =>
      if start < s.b_pos then (s, Except.error AllocError.NoMemory)
      else ({ s with p_pos := start }, Except.ok start)

/-- `PageAllocator::dealloc_pages`: no-op. -/
def dealloc_pages (s : EarlyAllocator) (_pos _num_pages : Nat) : EarlyAllocator := s

end EarlyAllocator

/-- `a` is a power of two (the shape `Layout` guarantees for `align`). -/
def isPow2 (a : Nat) : Prop := ∃ k : Nat, a = 2 ^ k

/-- Structural well-formedness of an allocator state: the cursors are
ordered inside the region, the bounds are representable in `usize`, and a
zero live count means the byte area stands reclaimed.  `Wf` is preserved
by every operation whose unchecked additions do not wrap (see `Reach`). -/
def Wf (s : EarlyAllocator) : Prop :=
  s.start ≤ s.b_pos ∧ s.b_pos ≤ s.p_pos ∧ s.p_pos ≤ s.end_ ∧
  s.end_ < USIZE ∧ s.start < USIZE ∧ (s.count = 0 → s.b_pos = s.start)

/-- Page-side divisibility: whenever the page size is a power of two and
the region's upper bound is page-aligned, the page cursor is page-aligned. -/
def PageInv (PS : Nat) (s : EarlyAllocator) : Prop :=
  ∀ i : Nat, i ≤ 63 → PS = 2 ^ i → PS ∣ s.end_ → PS ∣ s.p_pos

/-- States reachable from `new` by the allocator's operations.  `init` is
guarded by `base + size` fitting in `usize` and each `alloc` by a
power-of-two `Layout` alignment whose align-up step does not wrap: these
are exactly the calls whose unchecked additions stay within the address
width (otherwise the source wraps in release builds and panics under
overflow checks). -/
inductive Reach (PS : Nat) : EarlyAllocator → Prop where
  | new : Reach PS EarlyAllocator.new
  | init {s : EarlyAllocator} (base size : Nat) : Reach PS s →
      base < USIZE → base + size < USIZE → Reach PS (s.init base size)
  | add_memory {s : EarlyAllocator} (b sz : Nat) : Reach PS s →
      Reach PS (s.add_memory b sz).1
  | alloc {s : EarlyAllocator} (size align : Nat) : Reach PS s →
      isPow2 align → align ≤ 2 ^ 63 → s.b_pos + align ≤ USIZE →
      Reach PS (s.alloc size align).1
  | dealloc {s : EarlyAllocator} (p sz : Nat) : Reach PS s →
      Reach PS (s.dealloc p sz)
  | alloc_pages {s : EarlyAllocator} (n a : Nat) : Reach PS s →
      Reach PS (EarlyAllocator.alloc_pages PS s n a).1
  | dealloc_pages {s : EarlyAllocator} (p n : Nat) : Reach PS s →
      Reach PS (s.dealloc_pages p n)

/-- A byte-side operation: one `alloc(size, align)` call or one `dealloc`
call (whose address/layout arguments the source ignores). -/
inductive BOp where
  | ball (size align : Nat)
  | bfree
deriving DecidableEq

/-- Addresses returned by the successful allocations while running a
byte-operation trace from state `s`. -/
def addrsOf (s : EarlyAllocator) : List BOp → List Nat
  | [] => []
  | BOp.ball sz al :: t =>
    match s.alloc sz al with
    | (s2, Except.ok a) => a :: addrsOf s2 t
    | (s2, Except.error _) => addrsOf s2 t
  | BOp.bfree :: t => addrsOf (s.dealloc 0 0) t

/-- Guard on a byte-operation trace: each `alloc` uses a power-of-two
`Layout` alignment whose align-up does not wrap, and each `dealloc` hits a
state with at least two live allocations, so the live count never reaches
zero inside the trace. -/
def safeTrace (s : EarlyAllocator) : List BOp → Prop
  | [] => True
  | BOp.ball sz al :: t =>
      isPow2 al ∧ al ≤ 2 ^ 63 ∧ s.b_pos + al ≤ USIZE ∧
      safeTrace (s.alloc sz al).1 t
  | BOp.bfree :: t => 2 ≤ s.count ∧ safeTrace (s.dealloc 0 0) t

/-- `n` successive `dealloc` calls. -/
def deallocN (s : EarlyAllocator) : Nat → EarlyAllocator
  | 0 => s
  | n + 1 => (deallocN s n).dealloc 0 0

/-- All four address-valued fields are representable in `usize`. -/
def FieldsLt (s : EarlyAllocator) : Prop :=
  s.start < USIZE ∧ s.end_ < USIZE ∧ s.b_pos < USIZE ∧ s.p_pos < USIZE

/-! ### Bit-level facts about the two alignment helpers -/

theorem USIZE_pos : 0 < USIZE := by unfold USIZE; positivity

theorem testBit_usNot_two_pow_sub_one (k i : Nat) (hk : k ≤ 64) :
    (usNot (2 ^ k - 1)).testBit i = (decide (k ≤ i) && decide (i < 64)) := by
  simp only [usNot, USIZE, Nat.testBit_xor, Nat.testBit_two_pow_sub_one]
  by_cases h1 : i < k <;> by_cases h2 : i < 64 <;>
    simp [h1, h2] <;> omega

/-- Masking with `!(2^k - 1)` clears the low `k` bits: on `usize` values it
is division-then-multiplication by `2^k`. -/
theorem land_usNot_eq (x k : Nat) (hx : x < USIZE) (hk : k ≤ 64) :
    x &&& usNot (2 ^ k - 1) = x / 2 ^ k * 2 ^ k := by
  have hxb : ∀ i, 64 ≤ i → x.testBit i = false := by
    intro i hi
    exact Nat.testBit_lt_two_pow
      (Nat.lt_of_lt_of_le hx (Nat.pow_le_pow_right (by norm_num) hi))
  have hrw : x / 2 ^ k * 2 ^ k = (x >>> k) <<< k := by
    rw [Nat.shiftRight_eq_div_pow, Nat.shiftLeft_eq]
  rw [hrw]
  apply Nat.eq_of_testBit_eq
  intro i
  rw [Nat.testBit_and, testBit_usNot_two_pow_sub_one k i hk,
    Nat.testBit_shiftLeft, Nat.testBit_shiftRight]
  by_cases h1 : k ≤ i
  · by_cases h2 : i < 64
    · simp [h1, h2, Nat.add_sub_cancel' h1]
    · simp [h1, h2, hxb i (Nat.le_of_not_lt h2)]
  · simp [h1]

theorem align_down_two_pow (x i : Nat) (hx : x < USIZE) (hi : i ≤ 64) :
    EarlyAllocator.align_down x (2 ^ i) = x / 2 ^ i * 2 ^ i := by
  unfold EarlyAllocator.align_down
  rw [Nat.max_eq_right Nat.one_le_two_pow]
  exact land_usNot_eq x i hx hi

theorem align_up_two_pow (x i : Nat) (hi : i ≤ 64) :
    EarlyAllocator.align_up x (2 ^ i) =
      (x + 2 ^ i - 1) % USIZE / 2 ^ i * 2 ^ i := by
  unfold EarlyAllocator.align_up
  rw [Nat.max_eq_right Nat.one_le_two_pow]
  exact land_usNot_eq _ i (Nat.mod_lt _ USIZE_pos) hi

theorem dvd_align_up_two_pow (x i : Nat) (hi : i ≤ 64) :
    2 ^ i ∣ EarlyAllocator.align_up x (2 ^ i) := by
  rw [align_up_two_pow x i hi]; exact dvd_mul_left _ _

theorem dvd_align_down_two_pow (x i : Nat) (hx : x < USIZE) (hi : i ≤ 64) :
    2 ^ i ∣ EarlyAllocator.align_down x (2 ^ i) := by
  rw [align_down_two_pow x i hx hi]; exact dvd_mul_left _ _

theorem align_down_le (x al : Nat) : EarlyAllocator.align_down x al ≤ x :=
  Nat.and_le_left

/-- When the unchecked addition inside `align_up` stays within `usize`,
the mask computes the usual round-up to a multiple of `2^i`. -/
theorem align_up_two_pow_of_le (x i : Nat) (h : x + 2 ^ i ≤ USIZE) (hi : i ≤ 64) :
    EarlyAllocator.align_up x (2 ^ i) = (x + 2 ^ i - 1) / 2 ^ i * 2 ^ i := by
  have h1 : 1 ≤ 2 ^ i := Nat.one_le_two_pow
  rw [align_up_two_pow x i hi, Nat.mod_eq_of_lt (by omega)]

theorem le_align_up_two_pow (x i : Nat) (h : x + 2 ^ i ≤ USIZE) (hi : i ≤ 64) :
    x ≤ EarlyAllocator.align_up x (2 ^ i) := by
  rw [align_up_two_pow_of_le x i h hi]
  have h1 : 1 ≤ 2 ^ i := Nat.one_le_two_pow
  have h2 := Nat.mod_add_div (x + 2 ^ i - 1) (2 ^ i)
  have h3 : (x + 2 ^ i - 1) % 2 ^ i < 2 ^ i := Nat.mod_lt _ (by omega)
  have h4 : (x + 2 ^ i - 1) / 2 ^ i * 2 ^ i =
      2 ^ i * ((x + 2 ^ i - 1) / 2 ^ i) := Nat.mul_comm _ _
  omega

theorem align_up_eq_self (x i : Nat) (hd : 2 ^ i ∣ x)
    (h : x + 2 ^ i ≤ USIZE) (hi : i ≤ 64) :
    EarlyAllocator.align_up x (2 ^ i) = x := by
  rw [align_up_two_pow_of_le x i h hi]
  obtain ⟨m, rfl⟩ := hd
  have h1 : 1 ≤ 2 ^ i := Nat.one_le_two_pow
  have e1 : 2 ^ i * m + 2 ^ i - 1 = 2 ^ i - 1 + m * 2 ^ i := by
    have := Nat.mul_comm (2 ^ i) m
    omega
  rw [e1, Nat.add_mul_div_right _ _ (by omega), Nat.div_eq_of_lt (by omega),
    Nat.zero_add, Nat.mul_comm]

theorem max_two_pow (i j : Nat) : max (2 ^ i) (2 ^ j) = 2 ^ max i j := by
  rcases Nat.le_total i j with h | h
  · rw [Nat.max_eq_right (Nat.pow_le_pow_right (by norm_num) h), Nat.max_eq_right h]
  · rw [Nat.max_eq_left (Nat.pow_le_pow_right (by norm_num) h), Nat.max_eq_left h]

theorem two_pow_le_exp {k m : Nat} (h : (2 : Nat) ^ k ≤ 2 ^ m) : k ≤ m := by
  by_contra hgt
  have h1 : m + 1 ≤ k := by omega
  have h2 : (2 : Nat) ^ (m + 1) ≤ 2 ^ k := Nat.pow_le_pow_right (by norm_num) h1
  have h3 : (2 : Nat) ^ (m + 1) = 2 ^ m * 2 := Nat.pow_succ 2 m
  have h4 : (1 : Nat) ≤ 2 ^ m := Nat.one_le_two_pow
  omega

/-- The page-side alignment `max(PAGE_SIZE, 1 << min(63, a))` as a power of
two, for a power-of-two page size. -/
theorem page_align_eq (i a : Nat) :
    max (2 ^ i) (1 <<< min 63 a) = 2 ^ max i (min 63 a) := by
  rw [Nat.shiftLeft_eq, Nat.one_mul, max_two_pow]

/-! ### Characterizations of the operations -/

/-- `alloc` written out: candidate from `align_up`, failure exactly on
`usize` overflow of `candidate + size` or collision with `p_pos`, commit
of `b_pos` and `count` otherwise. -/
theorem alloc_eq (s : EarlyAllocator) (size align : Nat) :
    s.alloc size align =
      (let cand := EarlyAllocator.align_up s.b_pos (max align 1)
       if USIZE ≤ cand + max size 1 then (s, Except.error AllocError.NoMemory)
       else if s.p_pos < cand + max size 1 then (s, Except.error AllocError.NoMemory)
       else ({ s with b_pos := cand + max size 1, count := s.count + 1 },
             Except.ok cand)) := by
  unfold EarlyAllocator.alloc checked_add
  dsimp only
  set cand := EarlyAllocator.align_up s.b_pos (max align 1) with hcand
  by_cases h : cand + max size 1 < USIZE
  · rw [if_pos h, if_neg (Nat.not_le.mpr h)]
  · rw [if_neg h, if_pos (Nat.le_of_not_lt h)]

theorem alloc_error_frame {s : EarlyAllocator} {size align : Nat} {e : AllocError}
    (h : (s.alloc size align).2 = Except.error e) :
    (s.alloc size align).1 = s ∧ e = AllocError.NoMemory := by
  rw [alloc_eq] at h ⊢
  by_cases h1 : USIZE ≤ EarlyAllocator.align_up s.b_pos (max align 1) + max size 1
  · simp [h1] at h ⊢; exact h.symm
  · by_cases h2 : s.p_pos < EarlyAllocator.align_up s.b_pos (max align 1) + max size 1
    · simp [h1, h2] at h ⊢; exact h.symm
    · simp [h1, h2] at h

theorem alloc_ok_state {s : EarlyAllocator} {size align addr : Nat}
    (h : (s.alloc size align).2 = Except.ok addr) :
    addr = EarlyAllocator.align_up s.b_pos (max align 1) ∧
    (s.alloc size align).1 =
      { s with b_pos := addr + max size 1, count := s.count + 1 } ∧
    addr + max size 1 ≤ s.p_pos ∧ addr + max size 1 < USIZE := by
  rw [alloc_eq] at h ⊢
  by_cases h1 : USIZE ≤ EarlyAllocator.align_up s.b_pos (max align 1) + max size 1
  · simp [h1] at h
  · by_cases h2 : s.p_pos < EarlyAllocator.align_up s.b_pos (max align 1) + max size 1
    · simp [h1, h2] at h
    · simp only [h1, h2, if_false, if_neg h1, if_neg h2] at h ⊢
      simp at h
      subst h
      exact ⟨rfl, rfl, Nat.le_of_not_lt h2, Nat.lt_of_not_le h1⟩

/-- `alloc` never moves `start`, `end` or `p_pos`. -/
theorem alloc_frame (s : EarlyAllocator) (size align : Nat) :
    (s.alloc size align).1.start = s.start ∧
    (s.alloc size align).1.end_ = s.end_ ∧
    (s.alloc size align).1.p_pos = s.p_pos := by
  rw [alloc_eq]
  by_cases h1 : USIZE ≤ EarlyAllocator.align_up s.b_pos (max align 1) + max size 1 <;>
    by_cases h2 : s.p_pos < EarlyAllocator.align_up s.b_pos (max align 1) + max size 1 <;>
      simp [h1, h2]

/-- `dealloc` never moves `start`, `end` or `p_pos`, decrements `count`
with a floor at zero, and resets `b_pos` to `start` exactly when the
decremented count is zero. -/
theorem dealloc_eq (s : EarlyAllocator) (p sz : Nat) :
    s.dealloc p sz =
      { s with count := s.count - 1,
               b_pos := if s.count ≤ 1 then s.start else s.b_pos } := by
  unfold EarlyAllocator.dealloc
  rcases Nat.eq_zero_or_pos s.count with h | h
  · simp [h]
  · have h1 : (if s.count > 0 then s.count - 1 else s.count) = s.count - 1 := by
      simp [h]
    rw [h1]
    by_cases h2 : s.count ≤ 1
    · have : s.count - 1 = 0 := by omega
      simp [this, h2]
    · have : ¬ (s.count - 1 = 0) := by omega
      simp [this, h2]

/-- `alloc_pages` written out, for a power-of-two page size `2^i` and a
`usize`-valid `p_pos`: `InvalidParam` exactly for a zero page count,
`NoMemory` on multiplication overflow, arithmetic align-down of `p_pos`,
`NoMemory` on subtraction underflow or collision with `b_pos`, and commit
of `p_pos` otherwise. -/
theorem alloc_pages_eq (PS i : Nat) (s : EarlyAllocator) (n a : Nat)
    (hPS : PS = 2 ^ i) (hi : i ≤ 63) (hp : s.p_pos < USIZE) :
    EarlyAllocator.alloc_pages PS s n a =
      if n = 0 then (s, Except.error AllocError.InvalidParam)
      else if USIZE ≤ n * PS then (s, Except.error AllocError.NoMemory)
      else
        (let al := max PS (2 ^ min 63 a)
         let ae := s.p_pos / al * al
         if ae < n * PS then (s, Except.error AllocError.NoMemory)
         else if ae - n * PS < s.b_pos then (s, Except.error AllocError.NoMemory)
         else ({ s with p_pos := ae - n * PS }, Except.ok (ae - n * PS))) := by
  unfold EarlyAllocator.alloc_pages checked_mul checked_sub
  dsimp only
  by_cases h0 : n = 0
  · rw [if_pos h0, if_pos h0]
  rw [if_neg h0, if_neg h0]
  by_cases h1 : n * PS < USIZE
  swap
  · rw [if_neg h1, if_pos (Nat.le_of_not_lt h1)]
  rw [if_pos h1, if_neg (Nat.not_le.mpr h1)]
  dsimp only
  have hal : max PS (1 <<< min 63 a) = 2 ^ max i (min 63 a) := by
    rw [hPS, page_align_eq]
  have hal2 : max PS (2 ^ min 63 a) = 2 ^ max i (min 63 a) := by
    rw [hPS, max_two_pow]
  have hdown : EarlyAllocator.align_down s.p_pos (max PS (1 <<< min 63 a)) =
      s.p_pos / max PS (2 ^ min 63 a) * max PS (2 ^ min 63 a) := by
    rw [hal, hal2]
    exact align_down_two_pow s.p_pos _ hp (by omega)
  rw [hdown]
  by_cases h2 : n * PS ≤ s.p_pos / max PS (2 ^ min 63 a) * max PS (2 ^ min 63 a)
  · rw [if_pos h2, if_neg (Nat.not_lt.mpr h2)]
  · rw [if_neg h2, if_pos (Nat.lt_of_not_le h2)]

theorem alloc_pages_error_frame {PS : Nat} {s : EarlyAllocator} {n a : Nat}
    {e : AllocError} (h : (EarlyAllocator.alloc_pages PS s n a).2 = Except.error e) :
    (EarlyAllocator.alloc_pages PS s n a).1 = s := by
  unfold EarlyAllocator.alloc_pages checked_mul checked_sub at h ⊢
  dsimp only at h ⊢
  by_cases h0 : n = 0
  · simp [h0]
  rw [if_neg h0] at h ⊢
  by_cases h1 : n * PS < USIZE
  swap
  · simp [h1]
  rw [if_pos h1] at h ⊢
  dsimp only at h ⊢
  by_cases h2 : n * PS ≤
      EarlyAllocator.align_down s.p_pos (max PS (1 <<< min 63 a))
  · rw [if_pos h2] at h ⊢
    dsimp only at h ⊢
    by_cases h3 : EarlyAllocator.align_down s.p_pos (max PS (1 <<< min 63 a)) -
        n * PS < s.b_pos
    · rw [if_pos h3]
    · rw [if_neg h3] at h
      exact absurd h (by simp)
  · rw [if_neg h2]

theorem alloc_pages_ok_state {PS : Nat} {s : EarlyAllocator} {n a addr : Nat}
    (h : (EarlyAllocator.alloc_pages PS s n a).2 = Except.ok addr) :
    addr = EarlyAllocator.align_down s.p_pos (max PS (1 <<< min 63 a)) - n * PS ∧
    (EarlyAllocator.alloc_pages PS s n a).1 = { s with p_pos := addr } ∧
    s.b_pos ≤ addr ∧
    n * PS ≤ EarlyAllocator.align_down s.p_pos (max PS (1 <<< min 63 a)) ∧
    n ≠ 0 := by
  unfold EarlyAllocator.alloc_pages checked_mul checked_sub at h ⊢
  dsimp only at h ⊢
  by_cases h0 : n = 0
  · simp [h0] at h
  rw [if_neg h0] at h ⊢
  by_cases h1 : n * PS < USIZE
  swap
  · simp [h1] at h
  rw [if_pos h1] at h ⊢
  dsimp only at h ⊢
  by_cases h2 : n * PS ≤
      EarlyAllocator.align_down s.p_pos (max PS (1 <<< min 63 a))
  · rw [if_pos h2] at h ⊢
    dsimp only at h ⊢
    by_cases h3 : EarlyAllocator.align_down s.p_pos (max PS (1 <<< min 63 a)) -
        n * PS < s.b_pos
    · rw [if_pos h3] at h
      exact absurd h (by simp)
    · rw [if_neg h3] at h ⊢
      simp at h
      subst h
      exact ⟨rfl, rfl, Nat.le_of_not_lt h3, h2, h0⟩
  · rw [if_neg h2] at h
    exact absurd h (by simp)

/-- `alloc_pages` never moves `start`, `end`, `b_pos` or `count`. -/
theorem alloc_pages_frame (PS : Nat) (s : EarlyAllocator) (n a : Nat) :
    (EarlyAllocator.alloc_pages PS s n a).1.start = s.start ∧
    (EarlyAllocator.alloc_pages PS s n a).1.end_ = s.end_ ∧
    (EarlyAllocator.alloc_pages PS s n a).1.b_pos = s.b_pos ∧
    (EarlyAllocator.alloc_pages PS s n a).1.count = s.count := by
  rcases he : (EarlyAllocator.alloc_pages PS s n a).2 with e | addr
  · rw [(alloc_pages_error_frame he)]
    exact ⟨rfl, rfl, rfl, rfl⟩
  · obtain ⟨-, h2, -, -, -⟩ := alloc_pages_ok_state he
    rw [h2]
    exact ⟨rfl, rfl, rfl, rfl⟩

/-! ### Invariants of reachable states -/

theorem reach_wf {PS : Nat} {s : EarlyAllocator} (h : Reach PS s) : Wf s := by
  induction h with
  | new =>
    refine ⟨Nat.le_refl 0, Nat.le_refl 0, Nat.le_refl 0, USIZE_pos, USIZE_pos, fun _ => rfl⟩
  | init base size hr hb hbs ih =>
    rename_i s2
    have he : (base + size) % USIZE = base + size := Nat.mod_eq_of_lt hbs
    unfold EarlyAllocator.init Wf
    dsimp only
    rw [he]
    exact ⟨Nat.le_refl base, Nat.le_add_right base size, Nat.le_refl _,
      hbs, hb, fun _ => rfl⟩
  | add_memory b sz hr ih => exact ih
  | alloc size align hr hP hle hnw ih =>
    rename_i s2
    obtain ⟨hs1, hs2, hs3, hs4, hs5, hs6⟩ := ih
    rcases he : (s2.alloc size align).2 with e | addr
    · rw [(alloc_error_frame he).1]
      exact ⟨hs1, hs2, hs3, hs4, hs5, hs6⟩
    · obtain ⟨ha, hst, hple, hlt⟩ := alloc_ok_state he
      rw [hst]
      obtain ⟨k, rfl⟩ := hP
      have hone : (1 : Nat) ≤ 2 ^ k := Nat.one_le_two_pow
      have hmax : max (2 ^ k) 1 = 2 ^ k := Nat.max_eq_left hone
      have hk63 : k ≤ 63 := two_pow_le_exp hle
      have hge : s2.b_pos ≤ addr := by
        rw [ha, hmax]
        exact le_align_up_two_pow _ _ hnw (by omega)
      refine ⟨?_, hple, hs3, hs4, hs5, ?_⟩
      · exact Nat.le_trans (Nat.le_trans hs1 hge) (Nat.le_add_right _ _)
      · intro hc; exact absurd hc (Nat.succ_ne_zero _)
  | dealloc p sz hr ih =>
    rename_i s2
    obtain ⟨hs1, hs2, hs3, hs4, hs5, hs6⟩ := ih
    rw [dealloc_eq]
    by_cases hc : s2.count ≤ 1
    · simp only [if_pos hc]
      exact ⟨Nat.le_refl _, Nat.le_trans hs1 hs2, hs3, hs4, hs5, fun _ => rfl⟩
    · simp only [if_neg hc]
      refine ⟨hs1, hs2, hs3, hs4, hs5, fun h0 => ?_⟩
      have h0' : s2.count - 1 = 0 := h0
      exact absurd h0' (by omega)
  | alloc_pages n a hr ih =>
    rename_i s2
    obtain ⟨hs1, hs2, hs3, hs4, hs5, hs6⟩ := ih
    rcases he : (EarlyAllocator.alloc_pages PS s2 n a).2 with e | addr
    · rw [alloc_pages_error_frame he]
      exact ⟨hs1, hs2, hs3, hs4, hs5, hs6⟩
    · obtain ⟨ha, hst, hble, hsub, -⟩ := alloc_pages_ok_state he
      rw [hst]
      have hle2 : addr ≤ s2.p_pos := by
        calc addr = EarlyAllocator.align_down s2.p_pos
              (max PS (1 <<< min 63 a)) - n * PS := ha
          _ ≤ EarlyAllocator.align_down s2.p_pos (max PS (1 <<< min 63 a)) :=
              Nat.sub_le _ _
          _ ≤ s2.p_pos := align_down_le _ _
      exact ⟨hs1, hble, Nat.le_trans hle2 hs3, hs4, hs5, hs6⟩
  | dealloc_pages p n hr ih => exact ih

theorem reach_pageInv {PS : Nat} {s : EarlyAllocator} (h : Reach PS s) :
    PageInv PS s := by
  induction h with
  | new => intro i hi hPS hend; exact Dvd.intro 0 rfl
  | init base size hr hb hbs ih =>
    rename_i s2
    intro i hi hPS hend
    exact hend
  | add_memory b sz hr ih => exact ih
  | alloc size align hr hP hle hnw ih =>
    rename_i s2
    intro i hi hPS hend
    obtain ⟨-, hfe, hfp⟩ := alloc_frame s2 size align
    rw [hfp]
    rw [hfe] at hend
    exact ih i hi hPS hend
  | dealloc p sz hr ih =>
    rename_i s2
    intro i hi hPS hend
    rw [dealloc_eq] at hend ⊢
    exact ih i hi hPS hend
  | alloc_pages n a hr ih =>
    rename_i s2
    intro i hi hPS hend
    have hwf := reach_wf hr
    have hp : s2.p_pos < USIZE := by
      obtain ⟨-, -, h3, h4, -, -⟩ := hwf
      omega
    rcases he : (EarlyAllocator.alloc_pages PS s2 n a).2 with e | addr
    · rw [alloc_pages_error_frame he] at hend ⊢
      exact ih i hi hPS hend
    · obtain ⟨ha, hst, -, -, -⟩ := alloc_pages_ok_state he
      rw [hst]
      show PS ∣ addr
      have hdvd_down : PS ∣ EarlyAllocator.align_down s2.p_pos
          (max PS (1 <<< min 63 a)) := by
        have hal : max PS (1 <<< min 63 a) = 2 ^ max i (min 63 a) := by
          rw [hPS, page_align_eq]
        rw [hal]
        have hdvd1 : (2 : Nat) ^ i ∣ 2 ^ max i (min 63 a) :=
          pow_dvd_pow 2 (Nat.le_max_left _ _)
        have hdvd2 : (2 : Nat) ^ max i (min 63 a) ∣
            EarlyAllocator.align_down s2.p_pos (2 ^ max i (min 63 a)) :=
          dvd_align_down_two_pow _ _ hp (by omega)
        rw [hPS]
        exact dvd_trans hdvd1 hdvd2
      rw [ha]
      exact Nat.dvd_sub' hdvd_down (dvd_mul_left PS n)
  | dealloc_pages p n hr ih => exact ih

/-! ### Byte-allocation traces -/

/-- On a successful `alloc` whose align-up does not wrap, the returned
address is at or above the byte cursor. -/
theorem alloc_addr_ge {s : EarlyAllocator} {sz al addr : Nat}
    (hP : isPow2 al) (hnw : s.b_pos + al ≤ USIZE)
    (h : (s.alloc sz al).2 = Except.ok addr) :
    s.b_pos ≤ addr := by
  obtain ⟨ha, -, -, -⟩ := alloc_ok_state h
  obtain ⟨k, rfl⟩ := hP
  have hone : (1 : Nat) ≤ 2 ^ k := Nat.one_le_two_pow
  have hexp : k ≤ 64 := by
    apply two_pow_le_exp
    show (2 : Nat) ^ k ≤ 2 ^ 64
    have h2 : (2 : Nat) ^ k ≤ USIZE := by omega
    exact h2
  rw [ha, Nat.max_eq_left hone]
  exact le_align_up_two_pow _ _ hnw hexp

theorem addrsOf_ge {t : List BOp} : ∀ {s : EarlyAllocator}, safeTrace s t →
    ∀ x ∈ addrsOf s t, s.b_pos ≤ x := by
  induction t with
  | nil => intro s hs x hx; simp [addrsOf] at hx
  | cons op t ih =>
    intro s hs x hx
    cases op with
    | ball sz al =>
      obtain ⟨hP, hle, hnw, hrest⟩ := hs
      rcases he : s.alloc sz al with ⟨s2, r⟩
      have he1 : (s.alloc sz al).1 = s2 := by rw [he]
      rw [he1] at hrest
      cases r with
      | ok a =>
        have he2 : (s.alloc sz al).2 = Except.ok a := by rw [he]
        simp only [addrsOf, he] at hx
        have hge : s.b_pos ≤ a := alloc_addr_ge hP hnw he2
        rcases List.mem_cons.mp hx with rfl | hx2
        · exact hge
        · obtain ⟨-, hst, -, -⟩ := alloc_ok_state he2
          have hb2 : s2.b_pos = a + max sz 1 := by rw [← he1, hst]
          have := ih hrest x hx2
          omega
      | error e =>
        have he2 : (s.alloc sz al).2 = Except.error e := by rw [he]
        have hfr : (s.alloc sz al).1 = s := (alloc_error_frame he2).1
        have hs2 : s2 = s := by rw [← he1, hfr]
        simp only [addrsOf, he] at hx
        subst hs2
        exact ih hrest x hx
    | bfree =>
      obtain ⟨hcnt, hrest⟩ := hs
      simp only [addrsOf] at hx
      have hbp : (s.dealloc 0 0).b_pos = s.b_pos := by
        rw [dealloc_eq]
        have : ¬ s.count ≤ 1 := by omega
        simp [this]
      have := ih hrest x hx
      omega

theorem addrsOf_chain {t : List BOp} : ∀ {s : EarlyAllocator}, safeTrace s t →
    List.Chain' (· ≤ ·) (addrsOf s t) := by
  induction t with
  | nil => intro s hs; simp [addrsOf]
  | cons op t ih =>
    intro s hs
    cases op with
    | ball sz al =>
      obtain ⟨hP, hle, hnw, hrest⟩ := hs
      rcases he : s.alloc sz al with ⟨s2, r⟩
      have he1 : (s.alloc sz al).1 = s2 := by rw [he]
      rw [he1] at hrest
      cases r with
      | ok a =>
        have he2 : (s.alloc sz al).2 = Except.ok a := by rw [he]
        simp only [addrsOf, he]
        rw [List.chain'_cons']
        refine ⟨?_, ih hrest⟩
        intro y hy
        have hmem : y ∈ addrsOf s2 t := List.mem_of_mem_head? hy
        have h1 := addrsOf_ge hrest y hmem
        obtain ⟨-, hst, -, -⟩ := alloc_ok_state he2
        have hb2 : s2.b_pos = a + max sz 1 := by rw [← he1, hst]
        omega
      | error e =>
        have he2 : (s.alloc sz al).2 = Except.error e := by rw [he]
        have hs2 : s2 = s := by rw [← he1, (alloc_error_frame he2).1]
        simp only [addrsOf, he]
        subst hs2
        exact ih hrest
    | bfree =>
      obtain ⟨hcnt, hrest⟩ := hs
      simp only [addrsOf]
      exact ih hrest

/-! ### Iterated deallocation -/

theorem deallocN_frame (s : EarlyAllocator) (n : Nat) :
    (deallocN s n).start = s.start ∧ (deallocN s n).p_pos = s.p_pos ∧
    (deallocN s n).end_ = s.end_ ∧ (deallocN s n).count = s.count - n := by
  induction n with
  | zero => exact ⟨rfl, rfl, rfl, rfl⟩
  | succ n ih =>
    obtain ⟨h1, h2, h3, h4⟩ := ih
    simp only [deallocN, dealloc_eq]
    refine ⟨h1, h2, h3, ?_⟩
    show (deallocN s n).count - 1 = s.count - (n + 1)
    omega

theorem deallocN_reset (s : EarlyAllocator) (n : Nat) (h1 : 1 ≤ n)
    (h2 : s.count ≤ n) :
    (deallocN s n).count = 0 ∧ (deallocN s n).b_pos = s.start := by
  obtain ⟨m, rfl⟩ : ∃ m, n = m + 1 := ⟨n - 1, by omega⟩
  obtain ⟨hs, hp, he2, hc⟩ := deallocN_frame s m
  simp only [deallocN, dealloc_eq]
  constructor
  · show (deallocN s m).count - 1 = 0
    omega
  · show (if (deallocN s m).count ≤ 1 then (deallocN s m).start
        else (deallocN s m).b_pos) = s.start
    have : (deallocN s m).count ≤ 1 := by omega
    rw [if_pos this, hs]

/-! ### Representability of the committed state -/

theorem fieldsLt_init (s : EarlyAllocator) (b sz : Nat) (hb : b < USIZE) :
    FieldsLt (s.init b sz) := by
  unfold EarlyAllocator.init FieldsLt
  dsimp only
  exact ⟨hb, Nat.mod_lt _ USIZE_pos, hb, Nat.mod_lt _ USIZE_pos⟩

theorem fieldsLt_alloc (s : EarlyAllocator) (sz al : Nat) (h : FieldsLt s) :
    FieldsLt (s.alloc sz al).1 := by
  obtain ⟨h1, h2, h3, h4⟩ := h
  rcases he : (s.alloc sz al).2 with e | addr
  · rw [(alloc_error_frame he).1]; exact ⟨h1, h2, h3, h4⟩
  · obtain ⟨-, hst, -, hlt⟩ := alloc_ok_state he
    rw [hst]
    exact ⟨h1, h2, hlt, h4⟩

theorem fieldsLt_dealloc (s : EarlyAllocator) (p sz : Nat) (h : FieldsLt s) :
    FieldsLt (s.dealloc p sz) := by
  obtain ⟨h1, h2, h3, h4⟩ := h
  rw [dealloc_eq]
  by_cases hc : s.count ≤ 1
  · simp only [if_pos hc]; exact ⟨h1, h2, h1, h4⟩
  · simp only [if_neg hc]; exact ⟨h1, h2, h3, h4⟩

theorem fieldsLt_alloc_pages (PS : Nat) (s : EarlyAllocator) (n a : Nat)
    (h : FieldsLt s) : FieldsLt (EarlyAllocator.alloc_pages PS s n a).1 := by
  obtain ⟨h1, h2, h3, h4⟩ := h
  rcases he : (EarlyAllocator.alloc_pages PS s n a).2 with e | addr
  · rw [alloc_pages_error_frame he]; exact ⟨h1, h2, h3, h4⟩
  · obtain ⟨ha, hst, -, -, -⟩ := alloc_pages_ok_state he
    rw [hst]
    have : addr ≤ s.p_pos := by
      rw [ha]; exact Nat.le_trans (Nat.sub_le _ _) (align_down_le _ _)
    exact ⟨h1, h2, h3, Nat.lt_of_le_of_lt this h4⟩

/-! ### The claims -/

/-- C1, counterexample: the claim quantifies over every `init` call, but
`init(usize::MAX, 2)` computes `end` with an unchecked addition that
wraps, leaving `b_pos = usize::MAX > p_pos = 1` immediately after the
operation, so `b_pos <= p_pos` does not hold after every operation. -/
theorem C1_counterexample :
    ¬ ((EarlyAllocator.new.init (USIZE - 1) 2).b_pos ≤
       (EarlyAllocator.new.init (USIZE - 1) 2).p_pos) := by decide

/-- C1, amended: for states reachable through operations whose unchecked
additions stay within the address width (`init` with `base + size` in
range, `alloc` with a power-of-two alignment whose align-up does not
wrap), `b_pos <= p_pos` holds; every erroring `alloc` returns `NoMemory`
and leaves the state unchanged, every erroring `alloc_pages` leaves the
state unchanged, and every successful `alloc`/`alloc_pages` re-establishes
`b_pos <= p_pos`. -/
theorem C1_collision_invariant (PS : Nat) (s : EarlyAllocator)
    (h : Reach PS s) :
    s.b_pos ≤ s.p_pos ∧
    (∀ sz al e, (s.alloc sz al).2 = Except.error e →
      (s.alloc sz al).1 = s ∧ e = AllocError.NoMemory) ∧
    (∀ n a e, (EarlyAllocator.alloc_pages PS s n a).2 = Except.error e →
      (EarlyAllocator.alloc_pages PS s n a).1 = s) ∧
    (∀ sz al addr, (s.alloc sz al).2 = Except.ok addr →
      (s.alloc sz al).1.b_pos ≤ (s.alloc sz al).1.p_pos) ∧
    (∀ n a addr, (EarlyAllocator.alloc_pages PS s n a).2 = Except.ok addr →
      (EarlyAllocator.alloc_pages PS s n a).1.b_pos ≤
      (EarlyAllocator.alloc_pages PS s n a).1.p_pos) := by
  obtain ⟨h1, h2, h3, h4, h5, h6⟩ := reach_wf h
  refine ⟨h2, fun sz al e he => alloc_error_frame he,
    fun n a e he => alloc_pages_error_frame he, ?_, ?_⟩
  · intro sz al addr he
    obtain ⟨-, hst, hle, -⟩ := alloc_ok_state he
    rw [hst]
    exact hle
  · intro n a addr he
    obtain ⟨-, hst, hge, -, -⟩ := alloc_pages_ok_state he
    rw [hst]
    exact hge

theorem C1_collision_invariant_witness :
    (EarlyAllocator.new.init 0x1000 0x1000).b_pos ≤
      (EarlyAllocator.new.init 0x1000 0x1000).p_pos :=
  (C1_collision_invariant 0x1000 _
    (Reach.init 0x1000 0x1000 Reach.new (by decide) (by decide))).1

/-- C7, counterexample: the claim asserts all internal arithmetic is
total (checked).  `init`'s `end = start_vaddr + size` is unchecked: at
`base = usize::MAX, size = 2` the stored bound differs from the
mathematical sum (it wraps; under debug overflow checks this addition
panics). -/
theorem C7_counterexample :
    (EarlyAllocator.new.init (USIZE - 1) 2).end_ ≠ USIZE - 1 + 2 := by decide

/-- C7, amended: under release (wrapping) semantics every operation is a
total function that completes normally or returns an error, and every
operation keeps all four address fields below `2^64`; however `init`'s
bound computation is an unchecked addition — the stored `end` equals
`base + size` exactly when that sum fits the address width, and wraps
otherwise (as does the addition inside `align_up`). -/
theorem C7_total_arithmetic :
    (∀ (s : EarlyAllocator) (b sz : Nat),
      (s.init b sz).end_ = b + sz ↔ b + sz < USIZE) ∧
    (∀ (s : EarlyAllocator) (b sz : Nat), b < USIZE → FieldsLt (s.init b sz)) ∧
    (∀ (s : EarlyAllocator) (sz al : Nat), FieldsLt s → FieldsLt (s.alloc sz al).1) ∧
    (∀ (s : EarlyAllocator) (p sz : Nat), FieldsLt s → FieldsLt (s.dealloc p sz)) ∧
    (∀ (PS : Nat) (s : EarlyAllocator) (n a : Nat), FieldsLt s →
      FieldsLt (EarlyAllocator.alloc_pages PS s n a).1) ∧
    (∀ (s : EarlyAllocator) (b sz : Nat), FieldsLt s →
      FieldsLt (s.add_memory b sz).1) ∧
    (∀ (s : EarlyAllocator) (p n : Nat), FieldsLt s →
      FieldsLt (s.dealloc_pages p n)) := by
  refine ⟨?_, fieldsLt_init, fieldsLt_alloc, fieldsLt_dealloc,
    fieldsLt_alloc_pages, fun s b sz hf => hf, fun s p n hf => hf⟩
  intro s b sz
  unfold EarlyAllocator.init
  dsimp only
  constructor
  · intro h; rw [← h]; exact Nat.mod_lt _ USIZE_pos
  · exact Nat.mod_eq_of_lt

theorem C7_total_arithmetic_witness :
    ((EarlyAllocator.new.init 4 5).end_ = 4 + 5 ↔ 4 + 5 < USIZE) ∧
    FieldsLt ((EarlyAllocator.new.init 4 5).alloc 1 1).1 :=
  ⟨C7_total_arithmetic.1 EarlyAllocator.new 4 5,
   C7_total_arithmetic.2.2.1 _ 1 1
     (C7_total_arithmetic.2.1 EarlyAllocator.new 4 5 (by decide))⟩

/-- C9: `add_memory` always reports success without touching any of the
five state fields, and `dealloc_pages` is the identity on the state. -/
theorem C9_noop_operations (s : EarlyAllocator) (b sz p n : Nat) :
    s.add_memory b sz = (s, Except.ok ()) ∧ s.dealloc_pages p n = s :=
  ⟨rfl, rfl⟩

/-- C10: from the reachable state `init(0, 0x1000)`, `alloc(1, 1)`
succeeds and hands out address 0 — the source wraps it in
`NonNull::new_unchecked` without a nonzero check, so a caller relying on
the non-null guarantee must not place the region at base address 0. -/
theorem C10_zero_address :
    Reach 0x1000 (EarlyAllocator.new.init 0 0x1000) ∧
    ((EarlyAllocator.new.init 0 0x1000).alloc 1 1).2 = Except.ok 0 := by
  constructor
  · exact Reach.init 0 0x1000 Reach.new (by decide) (by decide)
  · decide

/-- C2: for a state with `b_pos <= p_pos` and a request whose alignment is
a power of two (as `Layout` guarantees, hence at most `2^63`) and whose
size is a `usize` value: `alloc` clamps size to a minimum of 1 (the
power-of-two alignment is already positive), computes the candidate with
`align_up`, fails with `NoMemory` exactly when `candidate + size` leaves
the address width or exceeds `p_pos` — leaving the state unchanged — and
otherwise commits `b_pos = candidate + size`, `count + 1`, returning the
candidate; every returned address is a multiple of `align` and satisfies
`address + size <= p_pos`. -/
theorem C2_alloc_contract (s : EarlyAllocator) (size align k : Nat)
    (hwf : s.b_pos ≤ s.p_pos) (hsz : size < USIZE) (hal : align = 2 ^ k)
    (hk : k ≤ 63) :
    (s.alloc size align =
      (let cand := EarlyAllocator.align_up s.b_pos align
       if USIZE ≤ cand + max size 1 then (s, Except.error AllocError.NoMemory)
       else if s.p_pos < cand + max size 1 then (s, Except.error AllocError.NoMemory)
       else ({ s with b_pos := cand + max size 1, count := s.count + 1 },
             Except.ok cand))) ∧
    (∀ addr, (s.alloc size align).2 = Except.ok addr →
      align ∣ addr ∧ addr + size ≤ s.p_pos) := by
  have hone : (1 : Nat) ≤ align := by rw [hal]; exact Nat.one_le_two_pow
  have hmax : max align 1 = align := Nat.max_eq_left hone
  constructor
  · rw [alloc_eq, hmax]
  · intro addr he
    obtain ⟨ha, -, hle, -⟩ := alloc_ok_state he
    constructor
    · rw [ha, hmax, hal]
      exact dvd_align_up_two_pow _ _ (by omega)
    · have hs : size ≤ max size 1 := Nat.le_max_left _ _
      omega

theorem C2_alloc_contract_witness :
    (2 : Nat) ^ 2 ∣ 0x1008 ∧ 0x1008 + 3 ≤ 0x2000 :=
  (C2_alloc_contract ⟨0x1000, 0x2000, 0x1008, 0x2000, 1⟩ 3 (2 ^ 2) 2
      (by decide) (by decide) rfl (by decide)).2 0x1008 (by decide)

/-- C3: for a power-of-two page size and a `usize`-valid `p_pos`,
`alloc_pages` returns `InvalidParam` iff `num_pages = 0`; otherwise it
computes `size = num_pages * PAGE_SIZE` (`NoMemory` on overflow), takes
the alignment `max(PAGE_SIZE, 2^min(align_pow2, 63))`, aligns `p_pos`
downward to it, subtracts `size`, fails with `NoMemory` on underflow or a
start below `b_pos`, and on success commits `p_pos` to the block start and
returns it; every error path leaves the state unchanged. -/
theorem C3_alloc_pages_contract (PS i : Nat) (s : EarlyAllocator) (n a : Nat)
    (hPS : PS = 2 ^ i) (hi : i ≤ 63) (hp : s.p_pos < USIZE) :
    EarlyAllocator.alloc_pages PS s n a =
      if n = 0 then (s, Except.error AllocError.InvalidParam)
      else if USIZE ≤ n * PS then (s, Except.error AllocError.NoMemory)
      else
        (let al := max PS (2 ^ min 63 a)
         let ae := s.p_pos / al * al
         if ae < n * PS then (s, Except.error AllocError.NoMemory)
         else if ae - n * PS < s.b_pos then (s, Except.error AllocError.NoMemory)
         else ({ s with p_pos := ae - n * PS }, Except.ok (ae - n * PS))) :=
  alloc_pages_eq PS i s n a hPS hi hp

theorem C3_alloc_pages_contract_witness :
    EarlyAllocator.alloc_pages 0x1000 (EarlyAllocator.new.init 0x1000 0x2000) 1 0 =
      ({ EarlyAllocator.new.init 0x1000 0x2000 with p_pos := 0x2000 },
       Except.ok 0x2000) := by
  have h := C3_alloc_pages_contract 0x1000 12
    (EarlyAllocator.new.init 0x1000 0x2000) 1 0 (by decide) (by decide) (by decide)
  rw [h]
  decide

/-- C4: `dealloc` ignores its address/layout arguments, decrements `count`
with saturation at 0, resets `b_pos` to `start` exactly when the
decremented count is 0 (leaving it untouched otherwise), and never moves
`start`, `p_pos` or `end`; hence `n >= max(count, 1)` deallocations drive
`count` to 0, reset `b_pos` to `start` and bring `used_bytes` to 0, and
surplus deallocations keep `count` at 0 and `b_pos` at `start`. -/
theorem C4_dealloc_contract (s : EarlyAllocator) (p sz : Nat) :
    (∀ p2 sz2, s.dealloc p sz = s.dealloc p2 sz2) ∧
    (s.dealloc p sz).count = s.count - 1 ∧
    (s.dealloc p sz).b_pos = (if s.count ≤ 1 then s.start else s.b_pos) ∧
    ((s.dealloc p sz).start = s.start ∧ (s.dealloc p sz).p_pos = s.p_pos ∧
      (s.dealloc p sz).end_ = s.end_) ∧
    (∀ n, 1 ≤ n → s.count ≤ n →
      (deallocN s n).count = 0 ∧ (deallocN s n).b_pos = s.start ∧
      (deallocN s n).used_bytes = 0) := by
  refine ⟨fun p2 sz2 => rfl, ?_, ?_, ?_, ?_⟩
  · rw [dealloc_eq]
  · rw [dealloc_eq]
  · rw [dealloc_eq]; exact ⟨rfl, rfl, rfl⟩
  · intro n h1 h2
    obtain ⟨hc, hb⟩ := deallocN_reset s n h1 h2
    obtain ⟨hs, -, -, -⟩ := deallocN_frame s n
    refine ⟨hc, hb, ?_⟩
    unfold EarlyAllocator.used_bytes
    rw [hb, hs]
    omega

theorem C4_dealloc_contract_witness :
    (deallocN ⟨0x1000, 0x2000, 0x1010, 0x2000, 2⟩ 3).count = 0 ∧
    (deallocN ⟨0x1000, 0x2000, 0x1010, 0x2000, 2⟩ 3).b_pos = 0x1000 ∧
    (deallocN ⟨0x1000, 0x2000, 0x1010, 0x2000, 2⟩ 3).used_bytes = 0 :=
  (C4_dealloc_contract ⟨0x1000, 0x2000, 0x1010, 0x2000, 2⟩ 0 0).2.2.2.2 3
    (by decide) (by decide)

/-- C5, counterexample: the accounting identity fails in a reachable
state.  After `init(0x800, 0x2000)` the region end `0x2800` is not
page-aligned; `alloc_pages(1, 0)` with `PAGE_SIZE = 0x1000` aligns the
end down to `0x2000` and commits `p_pos = 0x1000`, so `used_pages`
floor-divides the `0x1800`-byte tail to 1 page and the sum comes to
`0x1800` instead of `total_bytes = 0x2000`. -/
theorem C5_counterexample :
    Reach 0x1000 (EarlyAllocator.alloc_pages 0x1000
      (EarlyAllocator.new.init 0x800 0x2000) 1 0).1 ∧
    ¬ ((EarlyAllocator.alloc_pages 0x1000
          (EarlyAllocator.new.init 0x800 0x2000) 1 0).1.available_bytes +
       (EarlyAllocator.alloc_pages 0x1000
          (EarlyAllocator.new.init 0x800 0x2000) 1 0).1.used_bytes +
       EarlyAllocator.used_pages 0x1000 (EarlyAllocator.alloc_pages 0x1000
          (EarlyAllocator.new.init 0x800 0x2000) 1 0).1 * 0x1000 =
       (EarlyAllocator.alloc_pages 0x1000
          (EarlyAllocator.new.init 0x800 0x2000) 1 0).1.total_bytes) :=
  ⟨Reach.alloc_pages 1 0 (Reach.init 0x800 0x2000 Reach.new (by decide) (by decide)),
   by decide⟩

/-- C5, amended: in every reachable state of a power-of-two page size
whose region end is page-aligned (`PAGE_SIZE | end`, e.g. a page-aligned
`init` size and base), the partition identity
`available_bytes + used_bytes + used_pages * PAGE_SIZE = total_bytes`
holds. -/
theorem C5_accounting (PS i : Nat) (s : EarlyAllocator) (hPS : PS = 2 ^ i)
    (hi : i ≤ 63) (h : Reach PS s) (hend : PS ∣ s.end_) :
    s.available_bytes + s.used_bytes +
      EarlyAllocator.used_pages PS s * PS = s.total_bytes := by
  obtain ⟨h1, h2, h3, h4, h5, h6⟩ := reach_wf h
  have hpp : PS ∣ s.p_pos := reach_pageInv h i hi hPS hend
  have hd : PS ∣ (s.end_ - s.p_pos) := Nat.dvd_sub' hend hpp
  unfold EarlyAllocator.available_bytes EarlyAllocator.used_bytes
    EarlyAllocator.used_pages EarlyAllocator.total_bytes
  rw [Nat.div_mul_cancel hd]
  omega

theorem C5_accounting_witness :
    (EarlyAllocator.alloc_pages 0x1000
      (EarlyAllocator.new.init 0 0x2000) 1 0).1.available_bytes +
    (EarlyAllocator.alloc_pages 0x1000
      (EarlyAllocator.new.init 0 0x2000) 1 0).1.used_bytes +
    EarlyAllocator.used_pages 0x1000 (EarlyAllocator.alloc_pages 0x1000
      (EarlyAllocator.new.init 0 0x2000) 1 0).1 * 0x1000 =
    (EarlyAllocator.alloc_pages 0x1000
      (EarlyAllocator.new.init 0 0x2000) 1 0).1.total_bytes :=
  C5_accounting 0x1000 12 _ (by decide) (by decide)
    (Reach.alloc_pages 1 0 (Reach.init 0 0x2000 Reach.new (by decide) (by decide)))
    (by decide)

/-- C6, counterexample: the claim promises the returned address is a
multiple of `max(PAGE_SIZE, 2^a)`, but the source aligns the *end* of the
block down and then subtracts the size, so the *start* it returns need
not carry the requested alignment.  With `PAGE_SIZE = 0x1000`, region
`[0, 0x4000)` and `alloc_pages(1, 13)` the call succeeds with `0x3000`,
which is not a multiple of `max(0x1000, 2^13) = 0x2000`. -/
theorem C6_counterexample :
    ((EarlyAllocator.alloc_pages 0x1000
        (EarlyAllocator.new.init 0 0x4000) 1 13).2 = Except.ok 0x3000) ∧
    Reach 0x1000 (EarlyAllocator.alloc_pages 0x1000
        (EarlyAllocator.new.init 0 0x4000) 1 13).1 ∧
    ¬ ((max 0x1000 (2 ^ 13) : Nat) ∣ 0x3000) :=
  ⟨by decide,
   Reach.alloc_pages 1 13 (Reach.init 0 0x4000 Reach.new (by decide) (by decide)),
   by decide⟩

/-- C6, amended: for a power-of-two page size, every successful
`alloc_pages(n, a)` returns a multiple of `PAGE_SIZE`; the full requested
alignment `max(PAGE_SIZE, 2^min(a, 63))` (note the source clamps the
exponent at 63) is only guaranteed when it divides the block size
`n * PAGE_SIZE` — in particular whenever `2^a <= PAGE_SIZE`; it is the
aligned block end, not the returned start, that always carries it. -/
theorem C6_page_alignment (PS i : Nat) (s : EarlyAllocator) (n a addr : Nat)
    (hPS : PS = 2 ^ i) (hi : i ≤ 63) (hp : s.p_pos < USIZE)
    (hok : (EarlyAllocator.alloc_pages PS s n a).2 = Except.ok addr) :
    PS ∣ addr ∧
    (max PS (2 ^ min 63 a) ∣ n * PS → max PS (2 ^ min 63 a) ∣ addr) := by
  obtain ⟨ha, -, -, hsub, -⟩ := alloc_pages_ok_state hok
  have hal : max PS (1 <<< min 63 a) = 2 ^ max i (min 63 a) := by
    rw [hPS, page_align_eq]
  have hal2 : max PS (2 ^ min 63 a) = 2 ^ max i (min 63 a) := by
    rw [hPS, max_two_pow]
  have hdvd_down : 2 ^ max i (min 63 a) ∣
      EarlyAllocator.align_down s.p_pos (max PS (1 <<< min 63 a)) := by
    rw [hal]; exact dvd_align_down_two_pow _ _ hp (by omega)
  constructor
  · have h1 : PS ∣ EarlyAllocator.align_down s.p_pos (max PS (1 <<< min 63 a)) := by
      refine dvd_trans ?_ hdvd_down
      rw [hPS]; exact pow_dvd_pow 2 (Nat.le_max_left _ _)
    rw [ha]
    exact Nat.dvd_sub' h1 (dvd_mul_left PS n)
  · intro hsz
    rw [hal2] at hsz ⊢
    rw [ha]
    exact Nat.dvd_sub' hdvd_down hsz

theorem C6_page_alignment_witness :
    (0x1000 : Nat) ∣ 0x2000 :=
  (C6_page_alignment 0x1000 12 (EarlyAllocator.new.init 0x1000 0x2000) 1 0 0x2000
    (by decide) (by decide) (by decide) (by decide)).1

/-- C8, counterexample: the claim promises the next successful allocation
after full reclamation returns `start` again, but `alloc` re-aligns the
cursor: from the reachable state `init(1, 0x100)` with one allocation
freed (`count = 0`, `b_pos = start = 1`), `alloc(1, 2)` succeeds with
address 2, not `start = 1`. -/
theorem C8_counterexample :
    Reach 0x1000 (((EarlyAllocator.new.init 1 0x100).alloc 1 1).1.dealloc 0 0) ∧
    ((((EarlyAllocator.new.init 1 0x100).alloc 1 1).1.dealloc 0 0).count = 0) ∧
    ((((EarlyAllocator.new.init 1 0x100).alloc 1 1).1.dealloc 0 0).start = 1) ∧
    (((((EarlyAllocator.new.init 1 0x100).alloc 1 1).1.dealloc 0 0).alloc 1 2).2 =
      Except.ok 2) ∧
    (2 : Nat) ≠ 1 :=
  ⟨Reach.dealloc 0 0 (Reach.alloc 1 1
      (Reach.init 1 0x100 Reach.new (by decide) (by decide))
      ⟨0, rfl⟩ (by decide) (by decide)),
   by decide, by decide, by decide, by decide⟩

/-- C8, amended: along any byte-operation trace from a reachable state in
which every `alloc` uses a power-of-two alignment whose align-up does not
wrap and every `dealloc` leaves the live count positive, the successful
allocation addresses are monotonically non-decreasing; and once `count`
is 0 (so the byte area stands reclaimed), a successful `alloc(sz, align)`
returns `align_up(start, align)` — which is `start` itself whenever
`start` is a multiple of `align` (for example for `align = 1`). -/
theorem C8_monotonic_addresses (PS : Nat) (s : EarlyAllocator)
    (h : Reach PS s) :
    (∀ t, safeTrace s t → List.Chain' (· ≤ ·) (addrsOf s t)) ∧
    (∀ sz al addr, s.count = 0 → isPow2 al → al ≤ 2 ^ 63 →
      s.start + al ≤ USIZE → (s.alloc sz al).2 = Except.ok addr →
      addr = EarlyAllocator.align_up s.start al ∧
      (al ∣ s.start → addr = s.start)) := by
  obtain ⟨h1, h2, h3, h4, h5, h6⟩ := reach_wf h
  refine ⟨fun t ht => addrsOf_chain ht, ?_⟩
  intro sz al addr hc hP hle hnw hok
  have hb : s.b_pos = s.start := h6 hc
  obtain ⟨ha, -, -, -⟩ := alloc_ok_state hok
  obtain ⟨k, rfl⟩ := hP
  have hone : (1 : Nat) ≤ 2 ^ k := Nat.one_le_two_pow
  have hmax : max (2 ^ k) 1 = 2 ^ k := Nat.max_eq_left hone
  have hk : k ≤ 63 := two_pow_le_exp hle
  have haddr : addr = EarlyAllocator.align_up s.start (2 ^ k) := by
    rw [ha, hmax, hb]
  refine ⟨haddr, fun hdvd => ?_⟩
  rw [haddr]
  exact align_up_eq_self _ _ hdvd hnw (by omega)

theorem C8_monotonic_addresses_witness :
    addrsOf (EarlyAllocator.new.init 0x1000 0x1000)
      [BOp.ball 8 8, BOp.ball 3 4] = [0x1000, 0x1008] ∧
    List.Chain' (· ≤ ·) (addrsOf (EarlyAllocator.new.init 0x1000 0x1000)
      [BOp.ball 8 8, BOp.ball 3 4]) ∧
    (0x1000 : Nat) = (EarlyAllocator.new.init 0x1000 0x1000).start :=
  ⟨by decide,
   (C8_monotonic_addresses 0x1000 _
      (Reach.init 0x1000 0x1000 Reach.new (by decide) (by decide))).1
     [BOp.ball 8 8, BOp.ball 3 4]
     ⟨⟨3, rfl⟩, by decide, by decide, ⟨2, rfl⟩, by decide, by decide, trivial⟩,
   ((C8_monotonic_addresses 0x1000 _
      (Reach.init 0x1000 0x1000 Reach.new (by decide) (by decide))).2
     1 1 0x1000 rfl ⟨0, rfl⟩ (by decide) (by decide) (by decide)).2
     (by decide)⟩

end BumpAlloc
